import Mathlib

/-!
Verification of the batchexecute transport and codec layer of the nlm
repository: argument encoders (gen/method), session parameter resolution
(internal/rpc/rpc.go) and the unary/streaming transports with response
unframing (internal/rpc/grpcendpoint/handler.go).

Shallow embedding conventions: byte strings are modelled as List Char,
Go interface values handed to encoding/json are modelled by GoValue,
parsed JSON values by JValue, machine strings by String, fallible code
by Option / Except, and the process-wide mutable state (parameter cache,
request counter) by explicit state passing.
-/

namespace Nlm

/-! ## Go values and encoding/json serialization -/

/-- A Go value of type interface\x7b\x7d as handed to json.Marshal by the
encoders: nil, a string, an int, or a slice of values. -/
inductive GoValue where
  | null
  | str (s : String)
  | int (n : Int)
  | arr (elems : List GoValue)

/-- A Go slice built by appending elements to a variable declared as
var x []interface\x7b\x7d. When nothing was appended the slice is nil, and
json.Marshal renders a nil slice exactly like JSON null, so the nil slice
is identified with GoValue.null here. -/
def goSlice (xs : List GoValue) : GoValue :=
  match xs with
  | [] => GoValue.null
  | _ => GoValue.arr xs

/-- Lowercase hexadecimal digit, as used by the encoding/json escaper. -/
def hexDigitChar (n : Nat) : Char :=
  if n < 10 then Char.ofNat (48 + n) else Char.ofNat (87 + n)

/-- A \uXXXX escape with four lowercase hex digits. -/
def uEscape (n : Nat) : List Char :=
  ['\\', 'u', hexDigitChar (n / 4096 % 16), hexDigitChar (n / 256 % 16),
   hexDigitChar (n / 16 % 16), hexDigitChar (n % 16)]

/-- Escaping of one character of a string by json.Marshal with the default
HTML escaping: quote and backslash get a backslash, newline, carriage
return and tab use the short escapes, other control characters and the
HTML-sensitive characters use \u escapes. -/
def goEscapeChar (c : Char) : List Char :=
  if c = '"' then ['\\', '"']
  else if c = '\\' then ['\\', '\\']
  else if c = '\n' then ['\\', 'n']
  else if c = '\r' then ['\\', 'r']
  else if c = '\t' then ['\\', 't']
  else if c = '<' ∨ c = '>' ∨ c = '&' then uEscape c.toNat
  else if c.toNat < 32 then uEscape c.toNat
  else if c.toNat = 8232 ∨ c.toNat = 8233 then uEscape c.toNat
  else [c]

mutual

/-- json.Marshal of a GoValue, producing the compact JSON text that the
client places verbatim in the f.req form field. -/
def goMarshal : GoValue → List Char
  | .null => "null".data
  | .str s => '"' :: (s.data.map goEscapeChar).flatten ++ ['"']
  | .int n => (toString n).data
  | .arr xs => '[' :: goMarshalList xs ++ [']']

/-- Comma separated serialization of the elements of a JSON array. -/
def goMarshalList : List GoValue → List Char
  | [] => []
  | [x] => goMarshal x
  | x :: y :: xs => goMarshal x ++ ',' :: goMarshalList (y :: xs)

end

/-! ## Argument encoders (gen/method) -/

/-- EncodeActOnSourcesArgs from
gen/method/LabsTailwindOrchestrationService_ActOnSources_encoder.go:
position 0 wraps the source ids twice around the appended slice, position
5 is the action descriptor triple, position 7 the fixed metadata tuple,
all other positions nil. -/
def EncodeActOnSourcesArgs (sourceIds : List String) (action : String) : GoValue :=
  let sourceIDsInner := goSlice (sourceIds.map GoValue.str)
  let sourceIDsNested := GoValue.arr [GoValue.arr [sourceIDsInner]]
  let actionInfo := GoValue.arr
    [GoValue.str action,
     GoValue.arr [GoValue.arr [GoValue.str "[CONTEXT]", GoValue.str ""]],
     GoValue.str ""]
  GoValue.arr
    [sourceIDsNested, GoValue.null, GoValue.null, GoValue.null, GoValue.null,
     actionInfo, GoValue.null,
     GoValue.arr [GoValue.int 2, GoValue.null, GoValue.arr [GoValue.int 1]]]

/-- EncodeGenerateFreeFormStreamedArgs from the generated encoder for
LabsTailwindOrchestrationService.GenerateFreeFormStreamed: position 0
wraps the source ids once around the appended slice, position 1 is the
prompt, position 7 the fixed metadata tuple, all other positions nil. -/
def EncodeGenerateFreeFormStreamedArgs (sourceIds : List String) (prompt : String) : GoValue :=
  let sourceIDsInner := goSlice (sourceIds.map GoValue.str)
  let sourceIDsNested := GoValue.arr [sourceIDsInner]
  GoValue.arr
    [sourceIDsNested, GoValue.str prompt, GoValue.null, GoValue.null, GoValue.null,
     GoValue.null, GoValue.null,
     GoValue.arr [GoValue.int 2, GoValue.null, GoValue.arr [GoValue.int 1]]]

/-- Modelled from the spec: the claimed slot template of the
act-on-resources operation, with slot 0 a three level deep nested array
whose innermost elements are the resource identifiers in order. -/
def actOnSourcesSpecShape (sourceIds : List String) (action : String) : GoValue :=
  GoValue.arr
    [GoValue.arr [GoValue.arr [GoValue.arr (sourceIds.map GoValue.str)]],
     GoValue.null, GoValue.null, GoValue.null, GoValue.null,
     GoValue.arr
       [GoValue.str action,
        GoValue.arr [GoValue.arr [GoValue.str "[CONTEXT]", GoValue.str ""]],
        GoValue.str ""],
     GoValue.null,
     GoValue.arr [GoValue.int 2, GoValue.null, GoValue.arr [GoValue.int 1]]]

/-- Modelled from the spec: the claimed slot template of the
generate-freeform-streamed operation, with slot 0 a two level deep nested
array of the resource identifiers in order. -/
def freeFormSpecShape (sourceIds : List String) (prompt : String) : GoValue :=
  GoValue.arr
    [GoValue.arr [GoValue.arr (sourceIds.map GoValue.str)],
     GoValue.str prompt, GoValue.null, GoValue.null, GoValue.null,
     GoValue.null, GoValue.null,
     GoValue.arr [GoValue.int 2, GoValue.null, GoValue.arr [GoValue.int 1]]]

/-! ## JSON parsing (encoding/json Unmarshal) -/

/-- A parsed JSON value as produced by json.Unmarshal into interface\x7b\x7d.
Numbers keep their source literal, since no claim inspects numeric values. -/
inductive JValue where
  | null
  | bool (b : Bool)
  | num (lit : List Char)
  | str (s : List Char)
  | arr (elems : List JValue)
  | obj (fields : List (List Char × JValue))

/-- JSON insignificant whitespace accepted between tokens by the Go decoder. -/
def isJsonWs (c : Char) : Bool :=
  c == ' ' || c == '\t' || c == '\n' || c == '\r'

/-- Skip insignificant whitespace. -/
def skipWs (s : List Char) : List Char := s.dropWhile isJsonWs

/-- Value of one hexadecimal digit, if any. -/
def hexVal (c : Char) : Option Nat :=
  if '0' ≤ c ∧ c ≤ '9' then some (c.toNat - 48)
  else if 'a' ≤ c ∧ c ≤ 'f' then some (c.toNat - 87)
  else if 'A' ≤ c ∧ c ≤ 'F' then some (c.toNat - 55)
  else none

/-- Four hexadecimal digits of a \uXXXX escape. -/
def hex4 : List Char → Option (Nat × List Char)
  | a :: b :: c :: d :: rest => do
    let va ← hexVal a
    let vb ← hexVal b
    let vc ← hexVal c
    let vd ← hexVal d
    pure (va * 4096 + vb * 256 + vc * 16 + vd, rest)
  | _ => none

/-- UTF-16 surrogate code unit range. -/
def isSurrogate (n : Nat) : Bool := 55296 ≤ n && n ≤ 57343

/-- Body of a JSON string after the opening quote, following the Go
decoder: the usual escapes, \u escapes with surrogate pairs combined and
lone surrogates replaced by U+FFFD, and raw control characters rejected.
Returns the decoded characters and the input after the closing quote.
Fuel bounds the recursion and is supplied larger than the input length. -/
def lexString : Nat → List Char → Option (List Char × List Char)
  | 0, _ => none
  | _ + 1, [] => none
  | fuel + 1, c :: rest =>
    if c = '"' then some ([], rest)
    else if c = '\\' then
      match rest with
      | '"' :: r => (lexString fuel r).map fun p => ('"' :: p.1, p.2)
      | '\\' :: r => (lexString fuel r).map fun p => ('\\' :: p.1, p.2)
      | '/' :: r => (lexString fuel r).map fun p => ('/' :: p.1, p.2)
      | 'b' :: r => (lexString fuel r).map fun p => ('\x08' :: p.1, p.2)
      | 'f' :: r => (lexString fuel r).map fun p => ('\x0c' :: p.1, p.2)
      | 'n' :: r => (lexString fuel r).map fun p => ('\n' :: p.1, p.2)
      | 'r' :: r => (lexString fuel r).map fun p => ('\r' :: p.1, p.2)
      | 't' :: r => (lexString fuel r).map fun p => ('\t' :: p.1, p.2)
      | 'u' :: t =>
        match hex4 t with
        | none => none
        | some (n, rest1) =>
          if isSurrogate n then
            match rest1 with
            | '\\' :: 'u' :: t2 =>
              (match hex4 t2 with
               | some (m, rest2) =>
                 if 55296 ≤ n ∧ n ≤ 56319 ∧ 56320 ≤ m ∧ m ≤ 57343 then
                   (lexString fuel rest2).map fun p =>
                     (Char.ofNat (65536 + (n - 55296) * 1024 + (m - 56320)) :: p.1, p.2)
                 else
                   (lexString fuel rest1).map fun p => ('�' :: p.1, p.2)
               | none => (lexString fuel rest1).map fun p => ('�' :: p.1, p.2))
            | _ => (lexString fuel rest1).map fun p => ('�' :: p.1, p.2)
          else (lexString fuel rest1).map fun p => (Char.ofNat n :: p.1, p.2)
      | _ => none
    else if c.toNat < 32 then none
    else (lexString fuel rest).map fun p => (c :: p.1, p.2)

/-- Longest leading run of decimal digits together with the remainder. -/
def lexDigits (s : List Char) : List Char × List Char :=
  (s.takeWhile Char.isDigit, s.dropWhile Char.isDigit)

/-- Integer part of a JSON number: a single zero, or a nonzero digit
followed by further digits. -/
def lexIntPart : List Char → Option (List Char × List Char)
  | '0' :: t => some (['0'], t)
  | c :: t =>
    if c.isDigit then
      let p := lexDigits t
      some (c :: p.1, p.2)
    else none
  | [] => none

/-- Optional fractional part: a dot followed by at least one digit. -/
def lexFracPart (s : List Char) : Option (List Char × List Char) :=
  match s with
  | '.' :: t =>
    match lexDigits t with
    | ([], _) => none
    | (ds, r) => some ('.' :: ds, r)
  | _ => some ([], s)

/-- Optional exponent part: e or E, an optional sign, at least one digit. -/
def lexExpPart (s : List Char) : Option (List Char × List Char) :=
  match s with
  | c :: t =>
    if c = 'e' ∨ c = 'E' then
      let p := match t with
        | '+' :: u => (['+'], u)
        | '-' :: u => (['-'], u)
        | _ => (([] : List Char), t)
      match lexDigits p.2 with
      | ([], _) => none
      | (ds, r) => some (c :: p.1 ++ ds, r)
    else some ([], s)
  | [] => some ([], s)

/-- A JSON number literal per the grammar enforced by the Go decoder. -/
def lexNumber (s : List Char) : Option (List Char × List Char) := do
  let (neg, s1) := match s with
    | '-' :: t => ((['-'] : List Char), t)
    | _ => ([], s)
  let (ip, s2) ← lexIntPart s1
  let (fp, s3) ← lexFracPart s2
  let (ep, s4) ← lexExpPart s3
  pure (neg ++ ip ++ fp ++ ep, s4)

mutual

/-- Recursive descent parser for one JSON value, following the Go
decoder. Returns the value and the unconsumed input. Fuel bounds the
recursion and is supplied well above what any input can consume. -/
def parseValue : Nat → List Char → Option (JValue × List Char)
  | 0, _ => none
  | fuel + 1, s =>
    match skipWs s with
    | 'n' :: 'u' :: 'l' :: 'l' :: rest => some (.null, rest)
    | 't' :: 'r' :: 'u' :: 'e' :: rest => some (.bool true, rest)
    | 'f' :: 'a' :: 'l' :: 's' :: 'e' :: rest => some (.bool false, rest)
    | '"' :: rest =>
      (lexString (rest.length + 1) rest).map fun p => (.str p.1, p.2)
    | '[' :: rest => parseArrayRest fuel rest
    | '\x7b' :: rest => parseObjectRest fuel rest
    | rest => (lexNumber rest).map fun p => (.num p.1, p.2)

/-- Remainder of an array after the opening bracket. -/
def parseArrayRest : Nat → List Char → Option (JValue × List Char)
  | 0, _ => none
  | fuel + 1, s =>
    match skipWs s with
    | ']' :: rest => some (.arr [], rest)
    | s1 => parseElems fuel s1 []

/-- Comma separated array elements up to the closing bracket. -/
def parseElems : Nat → List Char → List JValue → Option (JValue × List Char)
  | 0, _, _ => none
  | fuel + 1, s, acc =>
    match parseValue fuel s with
    | none => none
    | some (v, r) =>
      match skipWs r with
      | ',' :: r2 => parseElems fuel r2 (acc ++ [v])
      | ']' :: r2 => some (.arr (acc ++ [v]), r2)
      | _ => none

/-- Remainder of an object after the opening brace. -/
def parseObjectRest : Nat → List Char → Option (JValue × List Char)
  | 0, _ => none
  | fuel + 1, s =>
    match skipWs s with
    | '\x7d' :: rest => some (.obj [], rest)
    | s1 => parseMembers fuel s1 []

/-- Comma separated object members up to the closing brace. -/
def parseMembers : Nat → List Char → List (List Char × JValue) →
    Option (JValue × List Char)
  | 0, _, _ => none
  | fuel + 1, s, acc =>
    match skipWs s with
    | '"' :: rest =>
      match lexString (rest.length + 1) rest with
      | none => none
      | some (key, r1) =>
        match skipWs r1 with
        | ':' :: r2 =>
          match parseValue fuel r2 with
          | none => none
          | some (v, r3) =>
            match skipWs r3 with
            | ',' :: r4 => parseMembers fuel r4 (acc ++ [(key, v)])
            | '\x7d' :: r4 => some (.obj (acc ++ [(key, v)]), r4)
            | _ => none
        | _ => none
    | _ => none

end

/-- json.Unmarshal of a complete input: one value with only whitespace
around it. -/
def jsonUnmarshal (s : List Char) : Option JValue :=
  match parseValue (4 * s.length + 8) s with
  | some (v, rest) => if (skipWs rest).isEmpty then some v else none
  | none => none

/-- Conversion of the elements of the outer array when unmarshaling into
the Go type [][]interface\x7b\x7d: each element must be an array, where JSON
null yields a nil inner slice. -/
def toOuterElems : List JValue → Option (List (List JValue))
  | [] => some []
  | JValue.null :: rest => (toOuterElems rest).map fun t => [] :: t
  | JValue.arr ys :: rest => (toOuterElems rest).map fun t => ys :: t
  | _ => none

/-- json.Unmarshal into [][]interface\x7b\x7d: the top level value must be an
array or null, and every element an array or null. -/
def toOuterArray : JValue → Option (List (List JValue))
  | JValue.null => some []
  | JValue.arr xs => toOuterElems xs
  | _ => none

/-! ## Response unframing and the two transports
(internal/rpc/grpcendpoint/handler.go) -/

/-- Errors surfaced by Execute after the HTTP exchange, named after the
fmt.Errorf messages in handler.go. -/
inductive ExecuteError where
  | httpStatus (status : Nat) (body : List Char)
  | parseOuter
  | invalidFormat
  | invalidDataType
deriving DecidableEq

/-- The four byte anti hijacking guard that Google prepends to JSON
responses, written \x29\x5d\x7d\x27. -/
def antiHijackGuard : List Char := [')', ']', '\x7d', '\x27']

/-- Lines 116 to 119 of handler.go: when the body starts with the guard,
drop the guard and every newline directly after it; otherwise leave the
body unchanged. -/
def stripGuard (body : List Char) : List Char :=
  if antiHijackGuard.isPrefixOf body then
    (body.drop 4).dropWhile (fun c => c = '\n')
  else body

/-- Split at the first newline, which is not kept: the part before it and
the part after it. None when the input holds no newline. -/
def breakOnNl : List Char → Option (List Char × List Char)
  | [] => none
  | c :: rest =>
    if c = '\n' then some ([], rest)
    else (breakOnNl rest).map fun p => (c :: p.1, p.2)

/-- Lines 123 to 127 of handler.go: strings.SplitN(body, newline, 3)
followed by taking element 1 when at least two fields exist. The result
is the text between the first and second newline, the text after the
first newline when there is no second one, and the whole input when
there is no newline at all. -/
def firstChunk (s : List Char) : List Char :=
  match breakOnNl s with
  | none => s
  | some (_, after) =>
    match breakOnNl after with
    | none => after
    | some (chunk, _) => chunk

/-- Lines 131 to 151 of handler.go: parse the working text as a JSON
array of arrays, require a first outer element with at least three
positions, and require position 2 of it to be a string, whose bytes are
the payload. -/
def envelopeExtract (s : List Char) : Except ExecuteError (List Char) :=
  match jsonUnmarshal s with
  | none => Except.error ExecuteError.parseOuter
  | some v =>
    match toOuterArray v with
    | none => Except.error ExecuteError.parseOuter
    | some outer =>
      match outer with
      | (_ :: _ :: c :: _) :: _ =>
        match c with
        | JValue.str d => Except.ok d
        | _ => Except.error ExecuteError.invalidDataType
      | _ => Except.error ExecuteError.invalidFormat

/-- Lines 114 to 151 of handler.go: the whole unframe path of Execute
applied to a raw 200 response body. -/
def unframeBody (body : List Char) : Except ExecuteError (List Char) :=
  envelopeExtract (firstChunk (stripGuard body))

/-- The combined parse of the working text into the Go type
[][]interface\x7b\x7d, used to state hypotheses about the parsed envelope. -/
def parsedOuter (body : List Char) : Option (List (List JValue)) :=
  (jsonUnmarshal (firstChunk (stripGuard body))).bind toOuterArray

/-- Lines 110 to 151 of handler.go: Execute checks
resp.StatusCode != http.StatusOK, that is against the single value 200,
and on 200 hands the raw body to the unframe path. The response is
abstracted by its status and fully read body. -/
def ExecuteResponse (status : Nat) (body : List Char) : Except ExecuteError (List Char) :=
  if status ≠ 200 then Except.error (ExecuteError.httpStatus status body)
  else unframeBody body

/-- Errors surfaced by Stream: the non 200 status error and the wrapped
handler error. -/
inductive StreamError (ε : Type) where
  | httpStatus (status : Nat) (body : List Char)
  | handlerError (e : ε)
deriving DecidableEq

/-- Lines 216 to 230 of handler.go: invoke the handler once per nonempty
read block in arrival order; a handler error stops the loop at once and
is returned wrapped; end of body is success. -/
def streamLoop (handler : List Char → Except ε Unit) :
    List (List Char) → Except (StreamError ε) Unit
  | [] => Except.ok ()
  | c :: rest =>
    if c.isEmpty then streamLoop handler rest
    else
      match handler c with
      | Except.error e => Except.error (StreamError.handlerError e)
      | Except.ok _ => streamLoop handler rest

/-- Lines 210 to 232 of handler.go: Stream checks
resp.StatusCode != http.StatusOK, reading the whole body into the error
in that case, and on 200 runs the chunk read loop. The response body is
abstracted as the list of read blocks in arrival order. -/
def StreamResponse (status : Nat) (chunks : List (List Char))
    (handler : List Char → Except ε Unit) : Except (StreamError ε) Unit :=
  if status ≠ 200 then Except.error (StreamError.httpStatus status chunks.flatten)
  else streamLoop handler chunks

/-- A streaming handler that accepts every chunk, for concrete instances. -/
def constOkHandler : List Char → Except Unit Unit := fun _ => Except.ok ()

/-! ## Session parameter resolution (internal/rpc/rpc.go) -/

/-- Hardcoded fallback build version from rpc.go. -/
def DefaultBuildVersion : String := "boq_labs-tailwind-frontend_20251120.08_p0"

/-- Hardcoded fallback session id from rpc.go. -/
def DefaultSessionID : String := "-8913782897795119716"

/-- APIParams from rpc.go: the bl and f.sid query parameter values. -/
structure APIParams where
  BuildVersion : String
  SessionID : String
deriving DecidableEq

/-- Result of one GetAPIParams call: the returned params, the cache cell
after the call, and whether the page fetch was issued during the call. -/
structure ResolveOutcome where
  params : APIParams
  cachedParams : Option APIParams
  fetchIssued : Bool
deriving DecidableEq

/-- Lines 35 to 67 of rpc.go. The process global cache cell is passed
explicitly; the two environment variables NLM_BUILD_VERSION and
NLM_SESSION_ID and the page fetch are parameters. Order: cache hit,
then both env overrides, then fetch when cookies are nonempty, then the
hardcoded defaults; every branch that misses the cache stores its result
in the cache. -/
def GetAPIParams (envBuildVersion envSessionID : String)
    (fetchFromPage : String → Option APIParams)
    (cachedParams : Option APIParams) (cookies : String) : ResolveOutcome :=
  match cachedParams with
  | some p => ⟨p, some p, false⟩
  | none =>
    if envBuildVersion ≠ "" ∧ envSessionID ≠ "" then
      let p : APIParams := ⟨envBuildVersion, envSessionID⟩
      ⟨p, some p, false⟩
    else if cookies ≠ "" then
      match fetchFromPage cookies with
      | some p => ⟨p, some p, true⟩
      | none =>
        let p : APIParams := ⟨DefaultBuildVersion, DefaultSessionID⟩
        ⟨p, some p, true⟩
    else
      let p : APIParams := ⟨DefaultBuildVersion, DefaultSessionID⟩
      ⟨p, some p, false⟩

/-- Lines 150 to 154 of rpc.go: ClearAPIParamsCache empties the cache
cell. -/
def ClearAPIParamsCache (_cachedParams : Option APIParams) : Option APIParams :=
  none

/-- Lines 123 to 139 of rpc.go, the tail of fetchAPIParamsFromPage:
when at least one field was extracted the missing one is filled from the
hardcoded default for that field, otherwise the fetch reports failure. -/
def fillFetchedDefaults (bv1 sid1 : String) : Option APIParams :=
  if bv1 ≠ "" ∨ sid1 ≠ "" then
    some ⟨if bv1 = "" then DefaultBuildVersion else bv1,
          if sid1 = "" then DefaultSessionID else sid1⟩
  else none

/-- Lines 70 to 140 of rpc.go: fetchAPIParamsFromPage. The HTTP GET is
abstracted as fetchPage (None models request creation, network or read
failure) and the four regex searches as functions from the page text to
an optional matched group, a missing match leaving the field empty. The
alternative pattern for a field runs only when the field is still
empty, and the final fill of missing fields is fillFetchedDefaults. -/
def fetchAPIParamsFromPage (fetchPage : String → Option String)
    (blPattern sidPattern blAltPattern sidAltPattern : String → Option String)
    (cookies : String) : Option APIParams :=
  match fetchPage cookies with
  | none => none
  | some html =>
    let bv0 := (blPattern html).getD ""
    let sid0 := (sidPattern html).getD ""
    let bv1 := if bv0 = "" then (blAltPattern html).getD "" else bv0
    let sid1 := if sid0 = "" then (sidAltPattern html).getD "" else sid0
    fillFetchedDefaults bv1 sid1

/-- The invariant that every cached value has nonempty fields. -/
def CacheInv (cachedParams : Option APIParams) : Prop :=
  ∀ p, cachedParams = some p → p.BuildVersion ≠ "" ∧ p.SessionID ≠ ""

/-! ## Request id generation (handler.go lines 236 to 241) -/

/-- Signed 64 bit wraparound: Go arithmetic on the type int (64 bit on
the supported platforms) reduces every result modulo 2 ^ 64 into the
range from -(2 ^ 63) up to 2 ^ 63 - 1. The literals below are 2 ^ 63
and 2 ^ 64. -/
def wrapInt64 (n : Int) : Int :=
  (n + 9223372036854775808) % 18446744073709551616 - 9223372036854775808

/-- generateRequestID from handler.go: increment the shared counter of
Go type int, then return 1000000 plus the incremented counter, both
additions wrapping as 64 bit signed arithmetic. Returns the id and the
new counter value. -/
def generateRequestID (requestCounter : Int) : Int × Int :=
  let c := wrapInt64 (requestCounter + 1)
  (wrapInt64 (1000000 + c), c)

/-- The shared counter value after k calls of generateRequestID,
starting from the zero initialized Go package variable. Execute and
Stream both draw from this one counter. -/
def counterAfterCalls : Nat → Int
  | 0 => 0
  | k + 1 => (generateRequestID (counterAfterCalls k)).2

/-- The request id carried by call number k + 1 under sequential
execution (k counts the calls already made). -/
def requestIDOfCall (k : Nat) : Int :=
  (generateRequestID (counterAfterCalls k)).1

/-! ## Concrete bodies used in the claims -/

/-- The exemplar raw body from the spec: guard, newline, the length 31,
newline, the envelope, newline. -/
def exemplarBody : List Char :=
  ")]\x7d\x27\n31\n[[\"wrb.fr\",null,\"\x7b\\\"a\\\":1\x7d\",null,null,null]]\n".data

/-- The payload bytes the exemplar must yield. -/
def exemplarPayload : List Char := "\x7b\"a\":1\x7d".data

/-- A bare envelope body without guard and without chunk framing. -/
def bareEnvelopeBody : List Char := "[[\"wrb.fr\",null,\"x\"]]".data

/-! ## Helper lemmas -/

/-- The unframe path never produces the HTTP status error: that error
arises only from the status check before unframing. -/
theorem envelopeExtract_ne_httpStatus (s : List Char) (st : Nat) (b : List Char) :
    envelopeExtract s ≠ Except.error (ExecuteError.httpStatus st b) := by
  unfold envelopeExtract
  split
  · simp
  · split
    · simp
    · split
      · split <;> simp
      · simp

/-- The chunk read loop never produces the HTTP status error. -/
theorem streamLoop_ne_httpStatus {ε : Type} (handler : List Char → Except ε Unit)
    (chunks : List (List Char)) (st : Nat) (b : List Char) :
    streamLoop handler chunks ≠ Except.error (StreamError.httpStatus st b) := by
  induction chunks with
  | nil => simp [streamLoop]
  | cons c rest ih =>
    unfold streamLoop
    split
    · exact ih
    · cases handler c <;> simp [ih]

/-- Every GetAPIParams call leaves its own result in the cache cell. -/
theorem GetAPIParams_caches_result (envBuildVersion envSessionID : String)
    (fetchFromPage : String → Option APIParams)
    (cachedParams : Option APIParams) (cookies : String) :
    (GetAPIParams envBuildVersion envSessionID fetchFromPage cachedParams cookies).cachedParams
      = some (GetAPIParams envBuildVersion envSessionID fetchFromPage cachedParams cookies).params := by
  cases cachedParams with
  | some p => rfl
  | none =>
    unfold GetAPIParams
    by_cases hA : envBuildVersion ≠ "" ∧ envSessionID ≠ ""
    · rw [if_pos hA]
    · rw [if_neg hA]
      by_cases hB : cookies ≠ ""
      · rw [if_pos hB]
        cases fetchFromPage cookies <;> rfl
      · rw [if_neg hB]

/-- The default filling step only succeeds with two nonempty fields. -/
theorem fillFetchedDefaults_nonempty (bv1 sid1 : String) (p : APIParams)
    (h : fillFetchedDefaults bv1 sid1 = some p) :
    p.BuildVersion ≠ "" ∧ p.SessionID ≠ "" := by
  unfold fillFetchedDefaults at h
  split at h
  · injection h with h2
    subst h2
    constructor
    · show (if bv1 = "" then DefaultBuildVersion else bv1) ≠ ""
      split
      · decide
      · assumption
    · show (if sid1 = "" then DefaultSessionID else sid1) ≠ ""
      split
      · decide
      · assumption
  · exact absurd h (by simp)

/-- Whenever the page fetch reports success, both returned fields are
nonempty: a field that neither pattern resolved is filled from its
hardcoded default. -/
theorem fetchAPIParamsFromPage_nonempty (fetchPage : String → Option String)
    (blPattern sidPattern blAltPattern sidAltPattern : String → Option String)
    (cookies : String) (p : APIParams)
    (h : fetchAPIParamsFromPage fetchPage blPattern sidPattern blAltPattern
      sidAltPattern cookies = some p) :
    p.BuildVersion ≠ "" ∧ p.SessionID ≠ "" := by
  unfold fetchAPIParamsFromPage at h
  cases hp : fetchPage cookies with
  | none => rw [hp] at h; exact absurd h (by simp)
  | some html =>
    rw [hp] at h
    exact fillFetchedDefaults_nonempty _ _ p h

/-- A character list without a newline has no split point. -/
theorem breakOnNl_eq_none (s : List Char) (h : '\n' ∉ s) : breakOnNl s = none := by
  induction s with
  | nil => rfl
  | cons c rest ih =>
    simp only [List.mem_cons, not_or] at h
    unfold breakOnNl
    rw [if_neg (fun hh => h.1 hh.symm), ih h.2]
    rfl

/-- Wrapping a value that is already in the signed 64 bit range is the
identity. -/
theorem wrapInt64_eq_self (n : Int) (h1 : -9223372036854775808 ≤ n)
    (h2 : n < 9223372036854775808) : wrapInt64 n = n := by
  unfold wrapInt64
  omega

/-- Wrapping before an increment does not change the wrapped result. -/
theorem wrapInt64_succ (x : Int) : wrapInt64 (wrapInt64 x + 1) = wrapInt64 (x + 1) := by
  unfold wrapInt64
  omega

/-- Closed form of the counter: after k calls it holds k wrapped into
the signed 64 bit range. -/
theorem counterAfterCalls_closed (k : Nat) : counterAfterCalls k = wrapInt64 (k : Int) := by
  induction k with
  | zero => decide
  | succ n ih =>
    have hstep : counterAfterCalls (n + 1) = wrapInt64 (counterAfterCalls n + 1) := rfl
    rw [hstep, ih, wrapInt64_succ]
    push_cast
    rfl

/-- Closed form of the id of call number k + 1. -/
theorem requestIDOfCall_closed (k : Nat) :
    requestIDOfCall k = wrapInt64 (1000000 + wrapInt64 ((k : Int) + 1)) := by
  have hstep : requestIDOfCall k
      = wrapInt64 (1000000 + wrapInt64 (counterAfterCalls k + 1)) := rfl
  rw [hstep, counterAfterCalls_closed, wrapInt64_succ]

/-! ## Claim theorems -/

/-- Claim C1: the unary unframe path strips the guard and the newlines
after it, takes the first length prefixed chunk as working text, parses
it as a JSON array of arrays and returns the string at index 2 of the
first outer element; on the exemplar body it yields exactly the payload
bytes of the embedded JSON object, and a non string at index 2 is a type
error. -/
theorem execute_unframe_exemplar :
    stripGuard exemplarBody
      = "31\n[[\"wrb.fr\",null,\"\x7b\\\"a\\\":1\x7d\",null,null,null]]\n".data ∧
    firstChunk (stripGuard exemplarBody)
      = "[[\"wrb.fr\",null,\"\x7b\\\"a\\\":1\x7d\",null,null,null]]".data ∧
    unframeBody exemplarBody = Except.ok exemplarPayload ∧
    unframeBody "[[null,null,3]]".data = Except.error ExecuteError.invalidDataType :=
  ⟨by decide, by decide, by rfl, by rfl⟩

/-- Claim C2, counterexample: for the empty source identifier list the
inner Go slice stays nil and serializes to JSON null, so slot 0 becomes
[[null]] rather than a three level deep nested array, refuting the claim
at that input. -/
theorem actOnSources_empty_source_list_cex :
    EncodeActOnSourcesArgs [] "do_it" ≠ actOnSourcesSpecShape [] "do_it" ∧
    goMarshal (EncodeActOnSourcesArgs [] "do_it")
      = "[[[null]],null,null,null,null,[\"do_it\",[[\"[CONTEXT]\",\"\"]],\"\"],null,[2,null,[1]]]".data :=
  ⟨fun h => absurd (congrArg goMarshal h) (by decide), by decide⟩

/-- Claim C2, amended: for every nonempty list of source identifiers and
every action the act-on-resources encoder realizes the claimed eight
slot template, and the exemplar input serializes to exactly the claimed
JSON text. -/
theorem actOnSources_encoder_spec :
    (∀ (sourceIds : List String) (action : String), sourceIds ≠ [] →
      EncodeActOnSourcesArgs sourceIds action = actOnSourcesSpecShape sourceIds action) ∧
    goMarshal (EncodeActOnSourcesArgs ["src1"] "do_it")
      = "[[[[\"src1\"]]],null,null,null,null,[\"do_it\",[[\"[CONTEXT]\",\"\"]],\"\"],null,[2,null,[1]]]".data := by
  refine ⟨?_, by decide⟩
  intro sourceIds action h
  cases sourceIds with
  | nil => exact absurd rfl h
  | cons a rest => rfl

/-- Claim C2, witness: the amended statement applied at the exemplar
input. -/
theorem actOnSources_encoder_spec_witness :
    EncodeActOnSourcesArgs ["src1"] "do_it" = actOnSourcesSpecShape ["src1"] "do_it" :=
  actOnSources_encoder_spec.1 ["src1"] "do_it" (by decide)

/-- Claim C3, counterexample: for the empty source identifier list the
inner Go slice stays nil and serializes to JSON null, so slot 0 becomes
[null] rather than a two level deep nested array, refuting the claim at
that input. -/
theorem freeFormStreamed_empty_source_list_cex :
    EncodeGenerateFreeFormStreamedArgs [] "hello" ≠ freeFormSpecShape [] "hello" ∧
    goMarshal (EncodeGenerateFreeFormStreamedArgs [] "hello")
      = "[[null],\"hello\",null,null,null,null,null,[2,null,[1]]]".data :=
  ⟨fun h => absurd (congrArg goMarshal h) (by decide), by decide⟩

/-- Claim C3, amended: for every nonempty list of source identifiers and
every prompt the generate-freeform-streamed encoder realizes the claimed
eight slot template, and the exemplar input serializes to exactly the
claimed JSON text. -/
theorem freeFormStreamed_encoder_spec :
    (∀ (sourceIds : List String) (prompt : String), sourceIds ≠ [] →
      EncodeGenerateFreeFormStreamedArgs sourceIds prompt
        = freeFormSpecShape sourceIds prompt) ∧
    goMarshal (EncodeGenerateFreeFormStreamedArgs ["src1", "src2"] "hello")
      = "[[[\"src1\",\"src2\"]],\"hello\",null,null,null,null,null,[2,null,[1]]]".data := by
  refine ⟨?_, by decide⟩
  intro sourceIds prompt h
  cases sourceIds with
  | nil => exact absurd rfl h
  | cons a rest => rfl

/-- Claim C3, witness: the amended statement applied at the exemplar
input. -/
theorem freeFormStreamed_encoder_spec_witness :
    EncodeGenerateFreeFormStreamedArgs ["src1", "src2"] "hello"
      = freeFormSpecShape ["src1", "src2"] "hello" :=
  freeFormStreamed_encoder_spec.1 ["src1", "src2"] "hello" (by decide)

/-- Claim C4, counterexample: 204 is a 2xx status, yet both transports
reject it with the status error even though the body unframes fine, so
it is not true that every 2xx status is treated as success. -/
theorem non200_2xx_status_cex :
    (200 ≤ 204 ∧ 204 < 300) ∧
    ExecuteResponse 204 exemplarBody
      = Except.error (ExecuteError.httpStatus 204 exemplarBody) ∧
    unframeBody exemplarBody = Except.ok exemplarPayload ∧
    StreamResponse 204 [exemplarBody] constOkHandler
      = Except.error (StreamError.httpStatus 204 exemplarBody) :=
  ⟨by decide, by rfl, by rfl, by rfl⟩

/-- Claim C4, amended: both transports return the error carrying the
status code and the body verbatim exactly when the status differs from
200 (not from every non 2xx status), and a 200 status proceeds to
unframing respectively to the chunk read loop. -/
theorem status_200_check_spec {ε : Type} (status : Nat) (body : List Char)
    (chunks : List (List Char)) (handler : List Char → Except ε Unit) :
    (ExecuteResponse status body
        = Except.error (ExecuteError.httpStatus status body) ↔ status ≠ 200) ∧
    (status = 200 → ExecuteResponse status body = unframeBody body) ∧
    (StreamResponse status chunks handler
        = Except.error (StreamError.httpStatus status chunks.flatten) ↔ status ≠ 200) ∧
    (status = 200 → StreamResponse status chunks handler = streamLoop handler chunks) := by
  refine ⟨⟨fun h => ?_, fun h => ?_⟩, fun h => ?_, ⟨fun h => ?_, fun h => ?_⟩, fun h => ?_⟩
  · intro hs
    subst hs
    simp only [ExecuteResponse, ne_eq, not_true_eq_false, if_false, ite_false] at h
    · exact envelopeExtract_ne_httpStatus _ _ _ h
  · unfold ExecuteResponse
    rw [if_pos h]
  · subst h
    simp [ExecuteResponse]
  · intro hs
    subst hs
    simp only [StreamResponse, ne_eq, not_true_eq_false, if_false, ite_false] at h
    · exact streamLoop_ne_httpStatus _ _ _ _ h
  · unfold StreamResponse
    rw [if_pos h]
  · subst h
    simp [StreamResponse]

/-- Claim C4, witness: the amended statement applied at status 200 with
the exemplar body and a one chunk stream. -/
theorem status_200_check_spec_witness :
    ExecuteResponse 200 exemplarBody = unframeBody exemplarBody ∧
    StreamResponse 200 [exemplarBody] constOkHandler
      = streamLoop constOkHandler [exemplarBody] :=
  ⟨(status_200_check_spec 200 exemplarBody [exemplarBody] constOkHandler).2.1 rfl,
   (status_200_check_spec 200 exemplarBody [exemplarBody] constOkHandler).2.2.2 rfl⟩

/-- Claim C5: whenever the working text parses into an outer array that
is empty or whose first element has fewer than three positions, the
unframe path returns the shape error as a value; the embedding is a
total function, so no panic is possible. -/
theorem short_envelope_shape_error (body : List Char) (outer : List (List JValue))
    (hp : parsedOuter body = some outer)
    (hshort : (outer.headD []).length < 3) :
    unframeBody body = Except.error ExecuteError.invalidFormat := by
  unfold parsedOuter at hp
  unfold unframeBody envelopeExtract
  cases hju : jsonUnmarshal (firstChunk (stripGuard body)) with
  | none => rw [hju] at hp; exact absurd hp (by simp)
  | some v =>
    rw [hju] at hp
    have hto : toOuterArray v = some outer := hp
    simp only [hto]
    cases outer with
    | nil => rfl
    | cons first rest =>
      cases first with
      | nil => rfl
      | cons a t1 =>
        cases t1 with
        | nil => rfl
        | cons b t2 =>
          cases t2 with
          | nil => rfl
          | cons c t3 =>
            exfalso
            simp [List.headD] at hshort
            omega

/-- Claim C5, witness: the statement applied at the body [[]], whose
envelope parses to one outer element with zero positions. -/
theorem short_envelope_shape_error_witness :
    parsedOuter "[[]]".data = some [[]] ∧
    unframeBody "[[]]".data = Except.error ExecuteError.invalidFormat :=
  ⟨rfl, short_envelope_shape_error "[[]]".data [[]] rfl (by decide)⟩

/-- Claim C6: a second resolve without an intervening invalidate returns
the identical cached params and leaves the cache unchanged, whatever the
two cookies arguments are; after invalidate the next resolve equals a
resolve from the empty cache, that is it re-runs the full chain. -/
theorem resolve_idempotent_until_invalidate (envBuildVersion envSessionID : String)
    (fetchFromPage : String → Option APIParams) (cachedParams : Option APIParams)
    (cookies1 cookies2 : String) :
    ((GetAPIParams envBuildVersion envSessionID fetchFromPage
        (GetAPIParams envBuildVersion envSessionID fetchFromPage cachedParams cookies1).cachedParams
        cookies2).params
      = (GetAPIParams envBuildVersion envSessionID fetchFromPage cachedParams cookies1).params ∧
     (GetAPIParams envBuildVersion envSessionID fetchFromPage
        (GetAPIParams envBuildVersion envSessionID fetchFromPage cachedParams cookies1).cachedParams
        cookies2).cachedParams
      = (GetAPIParams envBuildVersion envSessionID fetchFromPage cachedParams cookies1).cachedParams) ∧
    (∀ cookies3, GetAPIParams envBuildVersion envSessionID fetchFromPage
        (ClearAPIParamsCache
          (GetAPIParams envBuildVersion envSessionID fetchFromPage cachedParams cookies1).cachedParams)
        cookies3
      = GetAPIParams envBuildVersion envSessionID fetchFromPage none cookies3) := by
  refine ⟨⟨?_, ?_⟩, fun cookies3 => rfl⟩
  · rw [GetAPIParams_caches_result]
    rfl
  · rw [GetAPIParams_caches_result envBuildVersion envSessionID fetchFromPage cachedParams cookies1]
    rfl

/-- Claim C7: with an empty cache and both environment overrides
nonempty, resolve returns the params built from exactly the two override
values, issues no page fetch, and its result does not depend on the
fetch function, for every cookies argument. -/
theorem override_short_circuits_fetch (envBuildVersion envSessionID : String)
    (fetchA fetchB : String → Option APIParams) (cookies : String)
    (h1 : envBuildVersion ≠ "") (h2 : envSessionID ≠ "") :
    GetAPIParams envBuildVersion envSessionID fetchA none cookies
      = ⟨⟨envBuildVersion, envSessionID⟩, some ⟨envBuildVersion, envSessionID⟩, false⟩ ∧
    GetAPIParams envBuildVersion envSessionID fetchA none cookies
      = GetAPIParams envBuildVersion envSessionID fetchB none cookies := by
  have hA : GetAPIParams envBuildVersion envSessionID fetchA none cookies
      = ⟨⟨envBuildVersion, envSessionID⟩, some ⟨envBuildVersion, envSessionID⟩, false⟩ := by
    unfold GetAPIParams
    rw [if_pos ⟨h1, h2⟩]
  have hB : GetAPIParams envBuildVersion envSessionID fetchB none cookies
      = ⟨⟨envBuildVersion, envSessionID⟩, some ⟨envBuildVersion, envSessionID⟩, false⟩ := by
    unfold GetAPIParams
    rw [if_pos ⟨h1, h2⟩]
  exact ⟨hA, hA.trans hB.symm⟩

/-- Claim C7, witness: the statement applied at concrete overrides, a
nonempty cookies value and two fetch functions with different outcomes. -/
theorem override_short_circuits_fetch_witness :
    GetAPIParams "bl-override" "sid-override" (fun _ => none) none "some-cookies"
      = ⟨⟨"bl-override", "sid-override"⟩, some ⟨"bl-override", "sid-override"⟩, false⟩ ∧
    GetAPIParams "bl-override" "sid-override" (fun _ => none) none "some-cookies"
      = GetAPIParams "bl-override" "sid-override"
          (fun _ => some ⟨"fetched-bl", "fetched-sid"⟩) none "some-cookies" :=
  override_short_circuits_fetch "bl-override" "sid-override" (fun _ => none)
    (fun _ => some ⟨"fetched-bl", "fetched-sid"⟩) "some-cookies" (by decide) (by decide)

/-- Claim C8: starting from any cache satisfying the nonempty field
invariant, every completed resolve that uses the modelled page fetch
leaves a cached value whose BuildVersion and SessionID are both
nonempty, for every cookies argument, every page outcome and every
pattern outcome: unresolved fields are filled from the hardcoded
defaults. -/
theorem resolved_params_never_empty (envBuildVersion envSessionID : String)
    (fetchPage : String → Option String)
    (blPattern sidPattern blAltPattern sidAltPattern : String → Option String)
    (cachedParams : Option APIParams) (cookies : String)
    (hinv : CacheInv cachedParams) :
    ∃ q, (GetAPIParams envBuildVersion envSessionID
        (fetchAPIParamsFromPage fetchPage blPattern sidPattern blAltPattern sidAltPattern)
        cachedParams cookies).cachedParams = some q
      ∧ q.BuildVersion ≠ "" ∧ q.SessionID ≠ "" := by
  cases cachedParams with
  | some p => exact ⟨p, rfl, hinv p rfl⟩
  | none =>
    unfold GetAPIParams
    by_cases hA : envBuildVersion ≠ "" ∧ envSessionID ≠ ""
    · rw [if_pos hA]
      exact ⟨⟨envBuildVersion, envSessionID⟩, rfl, hA.1, hA.2⟩
    · rw [if_neg hA]
      by_cases hB : cookies ≠ ""
      · rw [if_pos hB]
        cases hf : fetchAPIParamsFromPage fetchPage blPattern sidPattern blAltPattern
            sidAltPattern cookies with
        | some p =>
          exact ⟨p, rfl, fetchAPIParamsFromPage_nonempty fetchPage blPattern sidPattern
            blAltPattern sidAltPattern cookies p hf⟩
        | none =>
          exact ⟨⟨DefaultBuildVersion, DefaultSessionID⟩, rfl, by decide, by decide⟩
      · rw [if_neg hB]
        exact ⟨⟨DefaultBuildVersion, DefaultSessionID⟩, rfl, by decide, by decide⟩

/-- Claim C8, witness: the statement applied at the empty cache with a
failing page fetch and empty overrides, where both fields fall back to
the hardcoded defaults. -/
theorem resolved_params_never_empty_witness :
    ∃ q, (GetAPIParams "" ""
        (fetchAPIParamsFromPage (fun _ => none) (fun _ => none) (fun _ => none)
          (fun _ => none) (fun _ => none))
        none "cookie-header").cachedParams = some q
      ∧ q.BuildVersion ≠ "" ∧ q.SessionID ≠ "" :=
  resolved_params_never_empty "" "" (fun _ => none) (fun _ => none) (fun _ => none)
    (fun _ => none) (fun _ => none) none "cookie-header"
    (fun _ h => Option.noConfusion h)

/-- Claim C9, counterexample: the Go counter has type int and wraps, so
call number 2 ^ 63 - 1000000 (index 2 ^ 63 - 1000001 after that many
prior calls) carries the id -(2 ^ 63) instead of the claimed
1000000 + (2 ^ 63 - 1000000) = 2 ^ 63, refuting unbounded strict
monotonicity on the code. -/
theorem request_id_overflow_cex :
    requestIDOfCall 9223372036853775807 = -9223372036854775808 ∧
    (1000000 : Int) + (9223372036853775807 + 1) = 9223372036854775808 ∧
    (-9223372036854775808 : Int) ≠ 9223372036854775808 := by
  refine ⟨?_, by norm_num, by decide⟩
  rw [requestIDOfCall_closed]
  decide

/-- Claim C9, amended: as long as the id stays below 2 ^ 63, that is for
every call number up to 2 ^ 63 - 1000001, the counter shared by Execute
and Stream makes call number k + 1 carry request id 1000000 + (k + 1),
so the first call carries 1000001 and successive ids increase by exactly
one; at call number 2 ^ 63 - 1000000 the 64 bit id wraps. -/
theorem request_id_monotonic_from_seed :
    requestIDOfCall 0 = 1000001 ∧
    (∀ k : Nat, (k : Int) < 9223372036853775807 →
      requestIDOfCall k = 1000000 + ((k : Int) + 1)) ∧
    (∀ k : Nat, (k : Int) + 1 < 9223372036853775807 →
      requestIDOfCall (k + 1) = requestIDOfCall k + 1) := by
  have hval : ∀ k : Nat, (k : Int) < 9223372036853775807 →
      requestIDOfCall k = 1000000 + ((k : Int) + 1) := by
    intro k hk
    rw [requestIDOfCall_closed,
      wrapInt64_eq_self ((k : Int) + 1) (by omega) (by omega),
      wrapInt64_eq_self (1000000 + ((k : Int) + 1)) (by omega) (by omega)]
  refine ⟨by decide, hval, fun k hk => ?_⟩
  have hk1 : ((k + 1 : Nat) : Int) < 9223372036853775807 := by push_cast; omega
  rw [hval (k + 1) hk1, hval k (by omega)]
  push_cast
  ring

/-- Claim C9, witness: the amended statement applied at call numbers
five and six, whose ids are 1000005 and 1000006. -/
theorem request_id_monotonic_from_seed_witness :
    requestIDOfCall 4 = 1000000 + (((4 : Nat) : Int) + 1) ∧
    requestIDOfCall 5 = requestIDOfCall 4 + 1 :=
  ⟨request_id_monotonic_from_seed.2.1 4 (by norm_num),
   request_id_monotonic_from_seed.2.2 4 (by norm_num)⟩

/-- Claim C10: when the body after optional guard stripping holds no
newline, the chunk split leaves it unchanged and the whole remaining
text is parsed as the envelope, so a bare unchunked envelope still
yields its payload. -/
theorem unchunked_body_parses_whole :
    (∀ body : List Char, '\n' ∉ stripGuard body →
      unframeBody body = envelopeExtract (stripGuard body)) ∧
    unframeBody bareEnvelopeBody = Except.ok "x".data := by
  refine ⟨?_, by rfl⟩
  intro body h
  unfold unframeBody firstChunk
  rw [breakOnNl_eq_none (stripGuard body) h]

/-- Claim C10, witness: the statement applied at a bare envelope body
without guard and without chunk framing. -/
theorem unchunked_body_parses_whole_witness :
    unframeBody "[[null,null,\"y\"]]".data
      = envelopeExtract (stripGuard "[[null,null,\"y\"]]".data) :=
  unchunked_body_parses_whole.1 "[[null,null,\"y\"]]".data (by decide)

end Nlm
